import Mathlib

/-!
Verification development for the PDF-library benchmarking harness of
`main.py` / `run.py` (class `LibrariesTesting` and its callers).

The harness is embedded shallowly:

* Python values that can appear as "page counts" are modelled by `PyVal`
  (the harness only ever converts them with `int(...)`).
* Python exception objects are modelled by `PyError`: `objId` stands for the
  object's identity, `kind` for its class name (the name appearing in an
  `except (...)` clause), `msg` for its `str(...)` rendering.
* Wall-clock elapsed times (differences of `time.time()` floats) are modelled
  as rationals; the fixed-point rendering done by the format specifications
  in `main.py` (`self.decimal_round`, 10 digits, and `self.default_time`,
  5 digits) is modelled by `fmtFixed`, with round-half-even as Python's
  float formatting uses.
* The per-strategy measurement loop shared by `_test_regex`, `_test_pypdf2`,
  `_test_pdfrw`, `_test_pdfquery`, `_test_tika` and `_test_pdfminer`
  (main.py lines 345-824, six near-identical copies) is embedded once as
  `runLoop`/`runStrategy`, parameterised by the strategy name; the parts in
  which the copies genuinely differ (the caught exception tuple, and whether
  the recorded filename is accent-stripped) are embedded as data
  (`recognizedKinds`, `recordedFilename`).
* `launch` (main.py lines 865-878) runs the six strategies in order and
  persists the final statistics dictionary.
-/

namespace PdfBench

/-- Python values that can flow into the harness as a recorded page count
(the harness converts them with `int(...)` at the summary step). -/
inductive PyVal where
  | int (n : ℤ)
  | float (q : ℚ)
  | str (s : String)
deriving DecidableEq

/-- A Python exception object: `objId` models object identity (two distinct
raised exception objects have distinct `objId`s), `kind` the exception class
name as written in the `except` clauses of main.py, and `msg` its string
rendering. -/
structure PyError where
  objId : ℕ
  kind : String
  msg : String
deriving DecidableEq

/-- The string rendering `str(e)` of an exception object. -/
def pyStr (e : PyError) : String := e.msg

/-- Truncation of a rational toward zero, the behaviour of Python's
`int(x)` on a float `x`. -/
def truncInt (q : ℚ) : ℤ := if 0 ≤ q then q.floor else -((-q).floor)

/-- Decimal digit test on a character. -/
def isDigitCh (c : Char) : Bool := 48 ≤ c.toNat && c.toNat ≤ 57

/-- Value of a list of decimal digit characters, most significant first. -/
def digitsToNat (cs : List Char) : ℕ :=
  cs.foldl (fun a c => a * 10 + (c.toNat - 48)) 0

/-- Python's `int(s)` on a string, modelled for the shapes the harness can
meet: an optional sign followed by at least one decimal digit converts; any
other string raises `ValueError`. -/
def pyIntOfString (s : String) : Except String ℤ :=
  let stripped : Bool × List Char :=
    match s.data with
    | '-' :: rest => (true, rest)
    | '+' :: rest => (false, rest)
    | rest => (false, rest)
  if stripped.2 ≠ [] && stripped.2.all isDigitCh then
    .ok ((if stripped.1 then -1 else 1) * (digitsToNat stripped.2 : ℤ))
  else
    .error ("ValueError: invalid literal for int() with base 10: " ++ s)

/-- Python's `int(...)` conversion as applied by the summary step
(`list(map(int, total_pages))`, e.g. main.py line 405): an int is returned
unchanged, a float is truncated toward zero without any error, and a string
must be an integer literal or a `ValueError` is raised. -/
def pyInt : PyVal → Except String ℤ
  | .int n => .ok n
  | .float q => .ok (truncInt q)
  | .str s => pyIntOfString s

/-- Round a rational to the nearest integer, ties to even, after scaling by
ten to the `d`: this is the integer whose digits Python's fixed-point float
formatting with `d` decimal places prints.  Implemented on the numerator and
denominator directly. -/
def roundHalfEvenScaled (d : ℕ) (q : ℚ) : ℤ :=
  let a : ℤ := q.num * ((10 ^ d : ℕ) : ℤ)
  let b : ℤ := (q.den : ℤ)
  let f : ℤ := a.fdiv b
  let r2 : ℤ := 2 * (a - f * b)
  if r2 < b then f
  else if b < r2 then f + 1
  else if f % 2 = 0 then f else f + 1

/-- The character of a single decimal digit. -/
def digitChar (n : ℕ) : Char := Char.ofNat (48 + n)

/-- Exactly `d` decimal digit characters of `n` (mod ten to the `d`),
most significant first, zero padded. -/
def natDigitsPadded : ℕ → ℕ → List Char
  | 0, _ => []
  | d + 1, n => natDigitsPadded d (n / 10) ++ [digitChar (n % 10)]

/-- Number of decimal digits of `n` (fuel-driven so that it reduces). -/
def digitLenAux : ℕ → ℕ → ℕ
  | 0, _ => 1
  | fuel + 1, n => if n < 10 then 1 else 1 + digitLenAux fuel (n / 10)

/-- Decimal digit characters of `n`, no padding. -/
def natToDigits (n : ℕ) : List Char := natDigitsPadded (digitLenAux n n) n

/-- Fixed-point decimal rendering of a rational with exactly `d` digits after
the decimal point, rounding half to even: the behaviour of Python's
fixed-point float format specification with precision `d` on (nonnegative)
time values. -/
def fmtFixed (d : ℕ) (q : ℚ) : String :=
  let n := roundHalfEvenScaled d q
  let m := n.natAbs
  let sign := if n < 0 then "-" else ""
  sign ++ String.mk (natToDigits (m / 10 ^ d)) ++ "." ++
    String.mk (natDigitsPadded d (m % 10 ^ d))

/-- The rendering applied to every measured elapsed time before it is stored
or logged: `self.decimal_round` of main.py line 251 is a fixed-point format
with 10 decimal places. -/
def decimal_round (q : ℚ) : String := fmtFixed 10 q

/-- The sentinel elapsed value recorded for failures: `self.default_time`
of main.py line 246 is zero rendered with 5 decimal places. -/
def default_time : String := fmtFixed 5 0

/-- Split a character list at every occurrence of `sep` (the pieces do not
contain `sep`; `n` separators yield `n + 1` pieces). -/
def splitChar (sep : Char) : List Char → List (List Char)
  | [] => [[]]
  | c :: cs =>
    let r := splitChar sep cs
    if c = sep then [] :: r
    else
      match r with
      | [] => [[c]]
      | g :: gs => (c :: g) :: gs

/-- POSIX `os.path.basename`: the part of the path after the last slash. -/
def basename (p : String) : String :=
  String.mk ((splitChar '/' p.data).getLastD [])

/-- Python's `float(s)` as applied when the persisted timing strings are
re-summed (`sum(list(map(float, total_mining_time)))`, main.py line 415) and
when a log line's elapsed field is read back: the exact rational value of a
fixed-point decimal string.  Modelled for the nonnegative fixed-point shapes
this harness writes. -/
def parseFixed (s : String) : ℚ :=
  match splitChar '.' s.data with
  | [i] => Rat.divInt (digitsToNat i : ℤ) 1
  | [i, f] =>
    Rat.divInt ((digitsToNat i : ℤ) * (10 : ℤ) ^ f.length + (digitsToNat f : ℤ))
      ((10 : ℤ) ^ f.length)
  | _ => 0

/-- Number of characters after the last dot of a rendered decimal string. -/
def fracDigitCount (s : String) : ℕ :=
  ((splitChar '.' s.data).getLastD []).length

example : default_time = "0.00000" := by decide
example : decimal_round 0 = "0.0000000000" := by decide
example : parseFixed "0.00000" = 0 := by decide
example : basename "a/b/c.pdf" = "c.pdf" := by decide

/-- NFKD decomposition of a single character, restricted to the characters
appearing in this development; characters with no decomposition listed in the
Unicode data (in particular all ASCII characters) map to themselves.  The
letter e with acute accent decomposes canonically into the plain letter
followed by the combining acute accent. -/
def nfkdChar (c : Char) : List Char :=
  if c = 'é' then ['e', '\u0301'] else [c]

/-- Unicode general category Mn (nonspacing combining mark), restricted to
the characters appearing in this development: of those, only the combining
acute accent is a combining mark. -/
def combiningMark (c : Char) : Bool := c = '\u0301'

/-- `LibrariesTesting.strip_accents` (main.py lines 253-255): NFKD-normalize
the text, then drop every character of category Mn. -/
def strip_accents (t : String) : String :=
  String.mk ((t.data.flatMap nfkdChar).filter (fun c => !combiningMark c))

example : strip_accents "café.pdf" = "cafe.pdf" := by decide

/-- The filename stored in a timing record for a given strategy: every
per-strategy loop records `os.path.basename` of the file path, and every
strategy except pdfminer additionally accent-strips it
(`strip_accents(os.path.basename(pdf_file))` at main.py lines 360, 439, 518,
597, 675 versus plain `os.path.basename(pdf_file)` at line 756). -/
def recordedFilename (name p : String) : String :=
  if name = "pdfminer" then basename p else strip_accents (basename p)

/-- The exception classes caught by each strategy's `except` clause
(main.py lines 396, 475, 554, 633, 714, 796). -/
def recognizedKinds : String → List String
  | "regex" => ["KeyError", "AttributeError"]
  | "pypdf2" => ["PdfReadError"]
  | "pdfrw" => ["ValueError", "PdfReadError"]
  | "pdfquery" => ["KeyError", "AttributeError", "TypeError", "PDFSyntaxError", "PDFEncryptionError"]
  | "tika" => ["KeyError", "AttributeError", "TypeError", "PDFSyntaxError", "PDFEncryptionError"]
  | "pdfminer" => ["KeyError", "AttributeError", "PDFSyntaxError", "PDFEncryptionError"]
  | _ => []

deriving instance DecidableEq for Except

/-- Result of one strategy/file evaluation, as seen by the harness: the
extraction either produces a page count after some elapsed wall-clock time,
or raises an exception. -/
inductive Outcome where
  | success (elapsed : ℚ) (pages : PyVal)
  | failure (err : PyError)
deriving DecidableEq

/-- One line of a strategy's timing log (`filename;elapsed` written by
`_save_mining_time`, main.py lines 325-343). -/
structure TimingRecord where
  filename : String
  elapsed : String
deriving DecidableEq

/-- Rendering of a timing record as the semicolon-delimited log line. -/
def renderRecord (r : TimingRecord) : String :=
  r.filename ++ ";" ++ r.elapsed

/-- The mutable per-strategy accumulators of one `_test_*` loop:
the strategy's log file contents, and the local lists `total_pages`,
`errors`, `total_mining_time` (e.g. main.py line 355). -/
structure LoopState where
  log : List TimingRecord
  total_pages : List PyVal
  errors : List PyError
  total_mining_time : List String
deriving DecidableEq

/-- Empty accumulators at loop entry. -/
def initLoop : LoopState := ⟨[], [], [], []⟩

/-- Whether a file's outcome is handled inside the strategy's loop: every
success is, and a failure is precisely when its exception class appears in
the strategy's `except` tuple. -/
def isRecognized (name : String) (f : String × Outcome) : Bool :=
  match f.2 with
  | .success _ _ => true
  | .failure err => (recognizedKinds name).contains err.kind

/-- The per-file body of each `_test_*` loop (e.g. main.py lines 357-403 for
regex), iterated over the discovered files: on success the elapsed time is
rendered with `decimal_round`, appended to `total_mining_time`, written to
the log, and the page count accumulated; on a failure whose class is in the
strategy's `except` tuple a sentinel `default_time` record is written, the
error object appended, and the loop continues; any other exception aborts
the loop, leaving the log as already written. -/
def runLoop (name : String) : List (String × Outcome) → LoopState → LoopState × Option PyError
  | [], st => (st, none)
  | f :: rest, st =>
    match f.2 with
    | .success e pages =>
      runLoop name rest
        { st with
          log := st.log ++ [⟨recordedFilename name f.1, decimal_round e⟩]
          total_mining_time := st.total_mining_time ++ [decimal_round e]
          total_pages := st.total_pages ++ [pages] }
    | .failure err =>
      if (recognizedKinds name).contains err.kind then
        runLoop name rest
          { st with
            log := st.log ++ [⟨recordedFilename name f.1, default_time⟩]
            errors := st.errors ++ [err] }
      else (st, some err)

/-- Python's `list(map(int, total_pages))` (e.g. main.py line 405): convert
left to right, raising at the first value `int(...)` rejects. -/
def mapPyInt : List PyVal → Except String (List ℤ)
  | [] => .ok []
  | v :: vs =>
    match pyInt v with
    | .error m => .error m
    | .ok n =>
      match mapPyInt vs with
      | .error m => .error m
      | .ok ns => .ok (n :: ns)

/-- Python's `list(set(errors))` on a list of exception objects: exception
objects compare by identity (`BaseException` defines no equality), so the
set deduplicates by object identity, not by message. -/
def memById (e : PyError) : List PyError → Bool
  | [] => false
  | x :: xs => x.objId == e.objId || memById e xs

/-- Deduplication by object identity, as `set(...)` performs on exception
objects (the iteration order of a Python set is unspecified; this model
keeps the last occurrence of each identity, and the claims below only use
identity-invariant consequences). -/
def pySetById : List PyError → List PyError
  | [] => []
  | e :: es => if memById e es then pySetById es else e :: pySetById es

/-- A per-strategy run either aborts with an uncaught exception (an
extraction error outside the strategy's `except` tuple, or a `ValueError`
from the `int(...)` conversion at the summary step) or produces the per
strategy summary. -/
inductive RunError where
  | extraction (e : PyError)
  | conversion (msg : String)
deriving DecidableEq

/-- The summary a completed strategy run merges into the final statistics
dictionary (e.g. main.py lines 405-424 for regex). -/
structure StrategyResult where
  log : List TimingRecord
  total_pages : ℤ
  total_parsing_time : ℚ
  error_count : ℕ
  distinct_errors : List PyError
  errors : List PyError
deriving DecidableEq

/-- One full `_test_*` strategy execution: run the per-file loop over the
discovered files, then compute the summary (`total_pages` by `int(...)`
conversion and summation, `total_parsing_time` by re-parsing and summing
`total_mining_time`, `error_count` and the identity-deduplicated
`distinct_errors`). -/
def runStrategy (name : String) (files : List (String × Outcome)) :
    Except RunError StrategyResult :=
  match runLoop name files initLoop with
  | (_, some err) => .error (.extraction err)
  | (st, none) =>
    match mapPyInt st.total_pages with
    | .error m => .error (.conversion m)
    | .ok ints =>
      .ok
        { log := st.log
          total_pages := ints.sum
          total_parsing_time := (st.total_mining_time.map parseFixed).sum
          error_count := st.errors.length
          distinct_errors := pySetById st.errors
          errors := st.errors }

example : runStrategy "regex" [] = .ok ⟨[], 0, 0, 0, [], []⟩ := by decide

/-- One `(r, f)` pair produced by `os.walk`: the directory `r`, the entry
name `f`, and the entry's on-disk size in bytes. -/
structure WalkEntry where
  dir : String
  fname : String
  size : ℕ
deriving DecidableEq

/-- `os.path.join(r, f)` for the POSIX paths `os.walk` yields. -/
def joinPath (dir fname : String) : String := dir ++ "/" ++ fname

/-- Suffix test on strings, by character list. -/
def endsWith (suf s : String) : Bool := suf.data.isSuffixOf s.data

/-- The paths passing the comprehension filter of `_prepare_pdfs`
(main.py lines 279-280): entries whose name ends in `.pdf` (case-sensitive)
and whose size is strictly positive, joined with their directory. -/
def pdfCandidates (walked : List WalkEntry) : List String :=
  walked.filterMap fun w =>
    if endsWith ".pdf" w.fname && decide (0 < w.size) then some (joinPath w.dir w.fname)
    else none

/-- `os.path.getsize` on a joined path, looked up in the walked entries. -/
def getsize (walked : List WalkEntry) (p : String) : ℕ :=
  (walked.filterMap fun w =>
    if joinPath w.dir w.fname = p then some w.size else none).headD 0

/-- `LibrariesTesting._prepare_pdfs` (main.py lines 271-285):
`sorted(list(set([...])), key=os.path.getsize, reverse=True)`.  The
comprehension's results are put through `set`, whose iteration order over
strings is unspecified (CPython randomizes string hashes per process), so
the embedding takes that order as the parameter `setIter`; the claims below
constrain `setIter` to enumerations of the filtered path set.  `sorted` with
`reverse=True` is a stable sort placing larger keys first, which is
`insertionSort` with the reflexive "size at least" relation. -/
def prepare_pdfs (walked : List WalkEntry) (setIter : List String) : List String :=
  List.insertionSort (fun a b => getsize walked b ≤ getsize walked a) setIter

/-- A list is a possible `set` iteration order for the filtered paths of
`walked`: duplicate-free and containing exactly the candidate paths. -/
def validSetIter (walked : List WalkEntry) (setIter : List String) : Prop :=
  setIter.Perm (pdfCandidates walked).dedup

instance (walked : List WalkEntry) (setIter : List String) :
    Decidable (validSetIter walked setIter) :=
  inferInstanceAs (Decidable (setIter.Perm (pdfCandidates walked).dedup))

/-- Strict lexicographic byte order on paths ("ascending path"). -/
def pathLt (a b : String) : Bool := go a.data b.data where
  go : List Char → List Char → Bool
    | [], [] => false
    | [], _ :: _ => true
    | _ :: _, [] => false
    | x :: xs, y :: ys =>
      if x.toNat < y.toNat then true
      else if y.toNat < x.toNat then false
      else go xs ys

/-- A value stored in `final_stats_dict`: a page total, a parsing-time
total, or the error-count/error-list object. -/
inductive StatVal where
  | intV (n : ℤ)
  | ratV (q : ℚ)
  | errV (count : ℕ) (errors : List PyError)
deriving DecidableEq

/-- Python `dict` assignment: replace the value of an existing key in place,
append a new key at the end (insertion order preserved). -/
def dictSet : List (String × StatVal) → String → StatVal → List (String × StatVal)
  | [], k, v => [(k, v)]
  | (k1, v1) :: rest, k, v =>
    if k1 = k then (k, v) :: rest else (k1, v1) :: dictSet rest k v

/-- The `self.final_stats_dict.update(**{...})` call ending each `_test_*`
method (e.g. main.py lines 417-424): three namespaced keys per strategy, in
the keyword order of the source. -/
def updateStats (d : List (String × StatVal)) (name : String) (res : StrategyResult) :
    List (String × StatVal) :=
  dictSet
    (dictSet
      (dictSet d (name ++ "_total_pages") (.intV res.total_pages))
      (name ++ "_total_parsing_time") (.ratV res.total_parsing_time))
    (name ++ "_errors") (.errV res.error_count res.distinct_errors)

/-- The strategy execution order of `launch` (main.py lines 872-877). -/
def strategyOrder : List String :=
  ["regex", "pypdf2", "pdfrw", "pdfquery", "tika", "pdfminer"]

/-- A `json.dump` call on the final statistics (main.py lines 316-323):
the dictionary content and the `sort_keys` / `indent` arguments passed. -/
structure WriteEvent where
  content : List (String × StatVal)
  sortKeys : Bool
  indent : ℕ
deriving DecidableEq

/-- The observable state after `launch` returns: the per-strategy summaries
and logs, the accumulated statistics dictionary, the readiness flag, and the
JSON writes performed. -/
structure LaunchResult where
  results : List (String × StrategyResult)
  final_stats_dict : List (String × StatVal)
  is_ready : Bool
  writes : List WriteEvent
deriving DecidableEq

/-- Run the strategies of `names` in order over their outcome tables,
accumulating summaries and dictionary updates; the first uncaught exception
aborts the whole pipeline. -/
def runAll (outcomes : String → List (String × Outcome)) :
    List String → List (String × StrategyResult) → List (String × StatVal) →
    Except RunError (List (String × StrategyResult) × List (String × StatVal))
  | [], accR, accD => .ok (accR, accD)
  | n :: ns, accR, accD =>
    match runStrategy n (outcomes n) with
    | .error e => .error e
    | .ok res => runAll outcomes ns (accR ++ [(n, res)]) (updateStats accD n res)

/-- `LibrariesTesting.launch` (main.py lines 865-878): run the six
strategies in their fixed order, then `_save_final_stats` (lines 305-323),
which sets `is_ready` and writes `final_stats_dict` once as JSON with
`sort_keys=True, indent=4`. -/
def launch (outcomes : String → List (String × Outcome)) : Except RunError LaunchResult :=
  match runAll outcomes strategyOrder [] [] with
  | .error e => .error e
  | .ok (rs, d) =>
    .ok { results := rs, final_stats_dict := d, is_ready := true
          writes := [⟨d, true, 4⟩] }

/-- The expected key set of the final report: three fields for each of the
six strategies, in dictionary insertion order. -/
def reportKeys : List String :=
  ["regex_total_pages", "regex_total_parsing_time", "regex_errors",
   "pypdf2_total_pages", "pypdf2_total_parsing_time", "pypdf2_errors",
   "pdfrw_total_pages", "pdfrw_total_parsing_time", "pdfrw_errors",
   "pdfquery_total_pages", "pdfquery_total_parsing_time", "pdfquery_errors",
   "tika_total_pages", "tika_total_parsing_time", "tika_errors",
   "pdfminer_total_pages", "pdfminer_total_parsing_time", "pdfminer_errors"]

/-- The observable steps of one file iteration of `_test_regex`
(main.py lines 364-372), in source statement order: `time.time()` is read
into `start_time`, then the file is opened and fully read, then the byte
pattern is matched, then `time.time()` is read into `end_time`. -/
inductive RegexEvent where
  | timerStart
  | fileOpen
  | fileRead
  | patternScan
  | timerStop
deriving DecidableEq

/-- The event order of one `_test_regex` file iteration as written in the
source. -/
def regexFileTrace : List RegexEvent :=
  [.timerStart, .fileOpen, .fileRead, .patternScan, .timerStop]

/-- Position of an event in the per-file regex trace. -/
def eventIdx (e : RegexEvent) : ℕ := regexFileTrace.findIdx (· == e)

/-! ### Specification of the per-strategy loop -/

/-- The timing record one file iteration writes: on success the elapsed time
rendered by `decimal_round`, on a caught failure the `default_time`
sentinel. -/
def logLine (name : String) (f : String × Outcome) : TimingRecord :=
  match f.2 with
  | .success e _ => ⟨recordedFilename name f.1, decimal_round e⟩
  | .failure _ => ⟨recordedFilename name f.1, default_time⟩

/-- The page counts accumulated by the successful iterations, in order. -/
def successPages (files : List (String × Outcome)) : List PyVal :=
  files.filterMap fun f =>
    match f.2 with
    | .success _ p => some p
    | .failure _ => none

/-- The rendered elapsed times accumulated in `total_mining_time`. -/
def successTimes (files : List (String × Outcome)) : List String :=
  files.filterMap fun f =>
    match f.2 with
    | .success e _ => some (decimal_round e)
    | .failure _ => none

/-- The error objects of the failing iterations, in order. -/
def failErrors (files : List (String × Outcome)) : List PyError :=
  files.filterMap fun f =>
    match f.2 with
    | .success _ _ => none
    | .failure e => some e

/-- The accumulator state after processing `fs` from state `st0`. -/
def accumLoop (name : String) (st0 : LoopState) (fs : List (String × Outcome)) : LoopState :=
  ⟨st0.log ++ fs.map (logLine name), st0.total_pages ++ successPages fs,
   st0.errors ++ failErrors fs, st0.total_mining_time ++ successTimes fs⟩

/-- The exception of a failing file (dummy on a success). -/
def errOf (f : String × Outcome) : PyError :=
  match f.2 with
  | .failure e => e
  | .success _ _ => ⟨0, "", ""⟩

theorem runLoop_eq (name : String) : ∀ (files : List (String × Outcome)) (st0 : LoopState),
    runLoop name files st0 =
      (accumLoop name st0 (files.takeWhile (isRecognized name)),
       ((files.dropWhile (isRecognized name)).head?).map errOf) := by
  intro files
  induction files with
  | nil => intro st0; simp [runLoop, accumLoop, successPages, successTimes, failErrors]
  | cons f rest ih =>
    intro st0
    obtain ⟨path, o⟩ := f
    cases o with
    | success e pages =>
      have hrec : isRecognized name (path, Outcome.success e pages) = true := rfl
      simp only [runLoop, ih, List.takeWhile_cons, List.dropWhile_cons, hrec, if_pos]
      simp [accumLoop, logLine, successPages, successTimes, failErrors,
        List.filterMap_cons]
    | failure err =>
      by_cases hc : (recognizedKinds name).contains err.kind
      · have hrec : isRecognized name (path, Outcome.failure err) = true := by
          simp only [isRecognized]; exact hc
        simp only [runLoop, hc, if_pos, ih, List.takeWhile_cons, List.dropWhile_cons, hrec]
        simp [accumLoop, logLine, successPages, successTimes, failErrors,
          List.filterMap_cons]
      · have hrec : isRecognized name (path, Outcome.failure err) = false := by
          simp only [isRecognized, Bool.not_eq_true] at hc ⊢
          exact hc
        simp only [runLoop, hc, if_neg, ih, List.takeWhile_cons, List.dropWhile_cons, hrec]
        simp [accumLoop, errOf, successPages, successTimes, failErrors]

theorem parseFixed_default : parseFixed default_time = 0 := by decide

/-- Summing the parsed elapsed fields of the produced log lines gives the
same value as summing the parsed entries of `total_mining_time`: the failure
records only contribute the parsed sentinel, which is zero. -/
theorem logSum_eq (name : String) : ∀ files : List (String × Outcome),
    ((files.map (logLine name)).map (fun r => parseFixed r.elapsed)).sum =
      ((successTimes files).map parseFixed).sum := by
  intro files
  induction files with
  | nil => simp [successTimes]
  | cons f rest ih =>
    obtain ⟨path, o⟩ := f
    cases o with
    | success e pages =>
      have hst : successTimes ((path, Outcome.success e pages) :: rest) =
          decimal_round e :: successTimes rest := by
        simp [successTimes, List.filterMap_cons]
      simp only [hst, List.map_cons, List.sum_cons, logLine, ih]
    | failure err =>
      have hst : successTimes ((path, Outcome.failure err) :: rest) =
          successTimes rest := by
        simp [successTimes, List.filterMap_cons]
      simp only [hst, List.map_cons, List.sum_cons, logLine, ih, parseFixed_default,
        zero_add]

/-- A completed strategy run (one that returned a summary) processed every
file: every outcome was a success or a recognized failure, and each summary
field is the corresponding function of the file list. -/
theorem runStrategy_ok (name : String) (files : List (String × Outcome))
    (res : StrategyResult) (h : runStrategy name files = .ok res) :
    (∀ f ∈ files, isRecognized name f = true) ∧
    res.log = files.map (logLine name) ∧
    res.errors = failErrors files ∧
    res.error_count = (failErrors files).length ∧
    res.distinct_errors = pySetById (failErrors files) ∧
    res.total_parsing_time = ((successTimes files).map parseFixed).sum ∧
    ∃ ints, mapPyInt (successPages files) = .ok ints ∧ res.total_pages = ints.sum := by
  unfold runStrategy at h
  rw [runLoop_eq] at h
  cases hd : (files.dropWhile (isRecognized name)).head? with
  | some f => rw [hd] at h; simp at h
  | none =>
    rw [hd] at h
    simp only [Option.map_none'] at h
    have hnil : files.dropWhile (isRecognized name) = [] := by
      cases hdw : files.dropWhile (isRecognized name) with
      | nil => rfl
      | cons a l => rw [hdw] at hd; simp at hd
    have hall : ∀ f ∈ files, isRecognized name f = true :=
      List.dropWhile_eq_nil_iff.mp hnil
    have htake : files.takeWhile (isRecognized name) = files :=
      List.takeWhile_eq_self_iff.mpr hall
    rw [htake] at h
    cases hm : mapPyInt (accumLoop name initLoop files).total_pages with
    | error m => rw [hm] at h; simp at h
    | ok ints =>
      rw [hm] at h
      simp only [Except.ok.injEq] at h
      have hpages : (accumLoop name initLoop files).total_pages = successPages files := by
        simp [accumLoop, initLoop]
      refine ⟨hall, ?_, ?_, ?_, ?_, ?_, ints, ?_, ?_⟩
      · rw [← h]; simp [accumLoop, initLoop]
      · rw [← h]; simp [accumLoop, initLoop]
      · rw [← h]; simp [accumLoop, initLoop]
      · rw [← h]; simp [accumLoop, initLoop]
      · rw [← h]; simp [accumLoop, initLoop, logSum_eq]
      · rw [← hpages]; exact hm
      · rw [← h]

/-- If every file's outcome is a success or a recognized failure, the loop
finishes without raising, with all accumulators filled. -/
theorem runLoop_complete (name : String) (files : List (String × Outcome))
    (hall : ∀ f ∈ files, isRecognized name f = true) :
    runLoop name files initLoop =
      (⟨files.map (logLine name), successPages files, failErrors files,
        successTimes files⟩, none) := by
  rw [runLoop_eq]
  have htake : files.takeWhile (isRecognized name) = files :=
    List.takeWhile_eq_self_iff.mpr hall
  have hdrop : files.dropWhile (isRecognized name) = [] :=
    List.dropWhile_eq_nil_iff.mpr hall
  rw [htake, hdrop]
  simp [accumLoop, initLoop]

/-- Dropping the recognized prefix of `pre ++ f :: post` stops exactly at
`f` when every element of `pre` is recognized and `f` is not. -/
theorem dropWhile_prefix_stop (name : String) (f : String × Outcome)
    (post : List (String × Outcome)) :
    ∀ pre : List (String × Outcome), (∀ g ∈ pre, isRecognized name g = true) →
    isRecognized name f = false →
    (pre ++ f :: post).dropWhile (isRecognized name) = f :: post := by
  intro pre
  induction pre with
  | nil =>
    intro _ hf
    simp [List.dropWhile_cons, hf]
  | cons g gs ih =>
    intro hall hf
    have hg : isRecognized name g = true := hall g (by simp)
    have hgs : ∀ x ∈ gs, isRecognized name x = true := fun x hx => hall x (by simp [hx])
    simp only [List.cons_append, List.dropWhile_cons, hg, if_pos]
    exact ih hgs hf

/-- An uncaught exception in the middle of the file list aborts the strategy
run with exactly that exception, after the preceding files were processed. -/
theorem runStrategy_aborts (name : String) (pre post : List (String × Outcome))
    (path : String) (err : PyError)
    (hpre : ∀ g ∈ pre, isRecognized name g = true)
    (herr : (recognizedKinds name).contains err.kind = false) :
    runStrategy name (pre ++ (path, Outcome.failure err) :: post) =
      .error (.extraction err) := by
  have hf : isRecognized name (path, Outcome.failure err) = false := by
    simp only [isRecognized]; exact herr
  unfold runStrategy
  rw [runLoop_eq, dropWhile_prefix_stop name _ post pre hpre hf]
  rfl

/-- A pipeline-level failure of `runAll` is exactly the failure of one of
the strategies it ran, with the error value unchanged. -/
theorem runAll_error (outcomes : String → List (String × Outcome)) :
    ∀ (names : List String) accR accD (er : RunError),
    runAll outcomes names accR accD = .error er →
    ∃ nm ∈ names, runStrategy nm (outcomes nm) = .error er := by
  intro names
  induction names with
  | nil => intro accR accD er h; simp [runAll] at h
  | cons n ns ih =>
    intro accR accD er h
    unfold runAll at h
    cases hr : runStrategy n (outcomes n) with
    | error e =>
      rw [hr] at h
      simp only [Except.error.injEq] at h
      exact ⟨n, by simp, by rw [hr, h]⟩
    | ok res =>
      rw [hr] at h
      obtain ⟨nm, hmem, hnm⟩ := ih _ _ _ h
      exact ⟨nm, by simp [hmem], hnm⟩

/-- Identity-membership test `memById` decides membership of the object id. -/
theorem memById_iff (e : PyError) : ∀ l : List PyError,
    memById e l = true ↔ e.objId ∈ l.map PyError.objId := by
  intro l
  induction l with
  | nil => simp [memById]
  | cons x xs ih =>
    simp only [memById, Bool.or_eq_true, beq_iff_eq, ih, List.map_cons, List.mem_cons]
    constructor
    · rintro (h | h)
      · exact Or.inl h.symm
      · exact Or.inr h
    · rintro (h | h)
      · exact Or.inl h.symm
      · exact Or.inr h

/-- `set(...)` on exception objects collapses nothing when the objects are
pairwise distinct: identity deduplication is the identity on a list of
distinct objects, whatever their messages. -/
theorem pySetById_eq_self : ∀ l : List PyError,
    (l.map PyError.objId).Nodup → pySetById l = l := by
  intro l
  induction l with
  | nil => simp [pySetById]
  | cons e es ih =>
    intro hnd
    simp only [List.map_cons, List.nodup_cons] at hnd
    have hmem : memById e es = false := by
      cases hm : memById e es with
      | false => rfl
      | true => exact absurd ((memById_iff e es).mp hm) hnd.1
    simp [pySetById, hmem, ih hnd.2]

/-- Every error object in the list is represented in the deduplicated list
by an object of the same identity. -/
theorem pySetById_covers : ∀ (l : List PyError) (e : PyError), e ∈ l →
    ∃ d ∈ pySetById l, d.objId = e.objId := by
  intro l
  induction l with
  | nil => intro e he; simp at he
  | cons x xs ih =>
    intro e he
    by_cases hm : memById x xs = true
    · have hx : pySetById (x :: xs) = pySetById xs := by simp [pySetById, hm]
      rcases List.mem_cons.mp he with he1 | he2
      · obtain ⟨x2, hx2mem, hx2id⟩ := List.mem_map.mp ((memById_iff x xs).mp hm)
        obtain ⟨d, hd, hdid⟩ := ih x2 hx2mem
        refine ⟨d, by rw [hx]; exact hd, ?_⟩
        rw [he1, hdid, hx2id]
      · obtain ⟨d, hd, hdid⟩ := ih e he2
        exact ⟨d, by rw [hx]; exact hd, hdid⟩
    · have hmf : memById x xs = false := by
        cases h2 : memById x xs with
        | false => rfl
        | true => exact absurd h2 hm
      have hx : pySetById (x :: xs) = x :: pySetById xs := by simp [pySetById, hmf]
      rcases List.mem_cons.mp he with he1 | he2
      · exact ⟨x, by rw [hx]; simp, by rw [he1]⟩
      · obtain ⟨d, hd, hdid⟩ := ih e he2
        exact ⟨d, by rw [hx]; simp [hd], hdid⟩

/-! ### Splitting lemmas for `basename` and the decimal renderings -/

theorem splitChar_ne_nil (sep : Char) : ∀ l : List Char, splitChar sep l ≠ [] := by
  intro l
  cases l with
  | nil => simp [splitChar]
  | cons c cs =>
    simp only [splitChar]
    by_cases hc : c = sep
    · simp [hc]
    · simp only [hc, if_false]
      cases splitChar sep cs with
      | nil => simp
      | cons g gs => simp

theorem getLastD_irrel {α : Type} (l : List α) (h : l ≠ []) (d1 d2 : α) :
    l.getLastD d1 = l.getLastD d2 := by
  cases l with
  | nil => exact absurd rfl h
  | cons a t => rw [List.getLastD_cons, List.getLastD_cons]

/-- A split at an explicit separator occurrence is the concatenation of the
splits of the two sides. -/
theorem splitChar_append_sep (sep : Char) :
    ∀ l1 l2 : List Char,
    splitChar sep (l1 ++ sep :: l2) = splitChar sep l1 ++ splitChar sep l2 := by
  intro l1
  induction l1 with
  | nil =>
    intro l2
    have h1 : splitChar sep (([] : List Char) ++ sep :: l2) = [] :: splitChar sep l2 := by
      simp [splitChar]
    rw [h1]
    rfl
  | cons c cs ih =>
    intro l2
    by_cases hc : c = sep
    · have h1 : splitChar sep ((c :: cs) ++ sep :: l2) =
          [] :: splitChar sep (cs ++ sep :: l2) := by
        simp [splitChar, hc]
      have h2 : splitChar sep (c :: cs) = [] :: splitChar sep cs := by
        simp [splitChar, hc]
      rw [h1, h2, ih]
      rfl
    · cases hr : splitChar sep cs with
      | nil => exact absurd hr (splitChar_ne_nil sep cs)
      | cons g gs =>
        have h1 : splitChar sep ((c :: cs) ++ sep :: l2) =
            (c :: g) :: (gs ++ splitChar sep l2) := by
          have h3 : splitChar sep (cs ++ sep :: l2) = g :: (gs ++ splitChar sep l2) := by
            rw [ih, hr]
            rfl
          simp [splitChar, hc, h3]
        have h2 : splitChar sep (c :: cs) = (c :: g) :: gs := by
          simp [splitChar, hc, hr]
        rw [h1, h2]
        rfl

/-- A list without the separator splits into a single piece. -/
theorem splitChar_no_sep (sep : Char) :
    ∀ l : List Char, sep ∉ l → splitChar sep l = [l] := by
  intro l
  induction l with
  | nil => intro _; rfl
  | cons c cs ih =>
    intro h
    have hc : ¬c = sep := fun hh => h (by rw [hh]; exact List.mem_cons_self _ _)
    have hcs : sep ∉ cs := fun hh => h (List.mem_cons_of_mem _ hh)
    simp only [splitChar, hc, if_false, ih hcs]

theorem getLastD_append_right {α : Type} (B : List α) (h : B ≠ []) :
    ∀ (A : List α) (d : α), (A ++ B).getLastD d = B.getLastD d := by
  intro A
  induction A with
  | nil => intro d; rfl
  | cons a A ih =>
    intro d
    rw [List.cons_append, List.getLastD_cons, ih a]
    exact getLastD_irrel B h a d

/-- `os.path.basename` drops every leading directory component. -/
theorem basename_append (dir f : String) :
    basename (dir ++ "/" ++ f) = basename f := by
  unfold basename
  rw [String.data_append, String.data_append]
  have h1 : ("/" : String).data = ['/'] := rfl
  rw [h1, List.append_assoc]
  have h2 : (['/'] : List Char) ++ f.data = '/' :: f.data := rfl
  rw [h2, splitChar_append_sep]
  rw [getLastD_append_right _ (splitChar_ne_nil '/' f.data)]

theorem natDigitsPadded_length : ∀ d n : ℕ, (natDigitsPadded d n).length = d := by
  intro d
  induction d with
  | zero => intro n; rfl
  | succ d ih =>
    intro n
    simp [natDigitsPadded, ih]

theorem digitChar_ne_dot (k : ℕ) (h : k < 10) : digitChar k ≠ '.' := by
  interval_cases k <;> decide

theorem dot_not_in_natDigitsPadded : ∀ d n : ℕ, '.' ∉ natDigitsPadded d n := by
  intro d
  induction d with
  | zero => intro n; simp [natDigitsPadded]
  | succ d ih =>
    intro n
    simp only [natDigitsPadded, List.mem_append, List.mem_singleton]
    rintro (h | h)
    · exact ih _ h
    · exact digitChar_ne_dot (n % 10) (Nat.mod_lt _ (by norm_num)) h.symm

theorem fmtFixed_def (d : ℕ) (q : ℚ) :
    fmtFixed d q =
      (if roundHalfEvenScaled d q < 0 then "-" else "") ++
      String.mk (natToDigits ((roundHalfEvenScaled d q).natAbs / 10 ^ d)) ++ "." ++
      String.mk (natDigitsPadded d ((roundHalfEvenScaled d q).natAbs % 10 ^ d)) := rfl

/-- Every rendering produced by `fmtFixed d` carries exactly `d` characters
after its decimal point. -/
theorem fracDigitCount_fmtFixed (d : ℕ) (q : ℚ) :
    fracDigitCount (fmtFixed d q) = d := by
  rw [fmtFixed_def]
  unfold fracDigitCount
  rw [String.data_append, String.data_append, String.data_append]
  have hmk : ∀ l : List Char, (String.mk l).data = l := fun l => rfl
  have hdot : ("." : String).data = ['.'] := rfl
  rw [hmk, hmk, hdot, List.append_assoc]
  have hcf : (['.'] : List Char) ++
      natDigitsPadded d ((roundHalfEvenScaled d q).natAbs % 10 ^ d) =
      '.' :: natDigitsPadded d ((roundHalfEvenScaled d q).natAbs % 10 ^ d) := rfl
  rw [hcf, splitChar_append_sep,
    splitChar_no_sep '.' _ (dot_not_in_natDigitsPadded _ _),
    getLastD_append_right _ (by simp)]
  simp [natDigitsPadded_length]

/-- Effect of a dictionary assignment on the key list alone. -/
def insKey : List String → String → List String
  | [], k => [k]
  | k1 :: ks, k => if k1 = k then k1 :: ks else k1 :: insKey ks k

theorem dictSet_fst (k : String) (v : StatVal) :
    ∀ d : List (String × StatVal), (dictSet d k v).map Prod.fst = insKey (d.map Prod.fst) k := by
  intro d
  induction d with
  | nil => rfl
  | cons e rest ih =>
    obtain ⟨k1, v1⟩ := e
    by_cases hk : k1 = k
    · simp [dictSet, insKey, hk]
    · simp [dictSet, insKey, hk, ih]

theorem updateStats_fst (d : List (String × StatVal)) (n : String) (res : StrategyResult) :
    (updateStats d n res).map Prod.fst =
      insKey (insKey (insKey (d.map Prod.fst) (n ++ "_total_pages"))
        (n ++ "_total_parsing_time")) (n ++ "_errors") := by
  unfold updateStats
  rw [dictSet_fst, dictSet_fst, dictSet_fst]

/-! ### The claims -/

/-- C1: for every strategy, a completed run writes exactly one timing record
to the strategy's log per discovered file, in order — the log is the
per-file map of `logLine` and has the same length as the file list — and a
file whose evaluation ends in a recognized failure contributes a record
carrying the `default_time` sentinel instead of being omitted. -/
theorem c1_one_record_per_file (name : String) (files : List (String × Outcome))
    (res : StrategyResult) (h : runStrategy name files = .ok res) :
    res.log.length = files.length ∧
    res.log = files.map (logLine name) ∧
    (∀ (p : String) (e : PyError), (p, Outcome.failure e) ∈ files →
      (⟨recordedFilename name p, default_time⟩ : TimingRecord) ∈ res.log) := by
  obtain ⟨-, hlog, -, -, -, -, -⟩ := runStrategy_ok name files res h
  refine ⟨by rw [hlog, List.length_map], hlog, ?_⟩
  intro p e hmem
  rw [hlog]
  exact List.mem_map.mpr ⟨(p, Outcome.failure e), hmem, rfl⟩

def c1_demo_files : List (String × Outcome) :=
  [("d/a.pdf", Outcome.success (Rat.divInt 1 2) (PyVal.int 3)),
   ("d/b.pdf", Outcome.failure ⟨0, "KeyError", "x"⟩)]

def c1_demo_res : StrategyResult :=
  ⟨[⟨"a.pdf", "0.5000000000"⟩, ⟨"b.pdf", "0.00000"⟩], 3, Rat.divInt 1 2, 1,
    [⟨0, "KeyError", "x"⟩], [⟨0, "KeyError", "x"⟩]⟩

unseal Rat.add in
theorem c1_witness :
    (runStrategy "regex" c1_demo_files = .ok c1_demo_res) ∧
    (c1_demo_res.log.length = c1_demo_files.length ∧
      c1_demo_res.log = c1_demo_files.map (logLine "regex") ∧
      (∀ (p : String) (e : PyError), (p, Outcome.failure e) ∈ c1_demo_files →
        (⟨recordedFilename "regex" p, default_time⟩ : TimingRecord) ∈ c1_demo_res.log)) :=
  ⟨by decide, c1_one_record_per_file "regex" c1_demo_files c1_demo_res (by decide)⟩

/-- C2: for every strategy, the reported `total_parsing_time` of a completed
run equals the sum of the parsed elapsed fields of all the timing records in
that strategy's log, the zero-valued failure sentinels included. -/
theorem c2_total_time_roundtrip (name : String) (files : List (String × Outcome))
    (res : StrategyResult) (h : runStrategy name files = .ok res) :
    res.total_parsing_time = (res.log.map (fun r => parseFixed r.elapsed)).sum := by
  obtain ⟨-, hlog, -, -, -, htime, -⟩ := runStrategy_ok name files res h
  rw [htime, hlog, logSum_eq]

def c2_demo_files : List (String × Outcome) :=
  [("d/a.pdf", Outcome.success (Rat.divInt 1 2) (PyVal.int 3)),
   ("d/b.pdf", Outcome.failure ⟨0, "KeyError", "x"⟩),
   ("d/c.pdf", Outcome.success (Rat.divInt 1 4) (PyVal.int 2))]

def c2_demo_res : StrategyResult :=
  ⟨[⟨"a.pdf", "0.5000000000"⟩, ⟨"b.pdf", "0.00000"⟩, ⟨"c.pdf", "0.2500000000"⟩],
    5, Rat.divInt 3 4, 1, [⟨0, "KeyError", "x"⟩], [⟨0, "KeyError", "x"⟩]⟩

unseal Rat.add in
theorem c2_witness :
    (runStrategy "regex" c2_demo_files = .ok c2_demo_res) ∧
    c2_demo_res.total_parsing_time =
      (c2_demo_res.log.map (fun r => parseFixed r.elapsed)).sum :=
  ⟨by decide, c2_total_time_roundtrip "regex" c2_demo_files c2_demo_res (by decide)⟩

/-- C3 counterexample: two equal-sized PDFs of 100 bytes each, with the set
iteration happening to yield the lexicographically larger path first — a
possible CPython execution, since string hashing is randomized — make
`_prepare_pdfs` return the paths in an order that is NOT ascending by path
within the size tie, refuting the claimed `(size desc, path asc)` order. -/
theorem c3_counterexample :
    validSetIter [⟨"d", "b.pdf", 100⟩, ⟨"d", "a.pdf", 100⟩] ["d/b.pdf", "d/a.pdf"] ∧
    prepare_pdfs [⟨"d", "b.pdf", 100⟩, ⟨"d", "a.pdf", 100⟩] ["d/b.pdf", "d/a.pdf"] =
      ["d/b.pdf", "d/a.pdf"] ∧
    ¬ (["d/b.pdf", "d/a.pdf"] : List String).Pairwise (fun a b =>
        getsize [⟨"d", "b.pdf", 100⟩, ⟨"d", "a.pdf", 100⟩] a >
          getsize [⟨"d", "b.pdf", 100⟩, ⟨"d", "a.pdf", 100⟩] b ∨
        (getsize [⟨"d", "b.pdf", 100⟩, ⟨"d", "a.pdf", 100⟩] a =
          getsize [⟨"d", "b.pdf", 100⟩, ⟨"d", "a.pdf", 100⟩] b ∧ pathLt a b = true)) := by
  decide

/-- C3 (amended): for every root, discovery returns a duplicate-free
sequence containing exactly the files whose name ends in `.pdf`
(case-sensitive) and whose size is strictly positive, ordered by descending
size; the order within a size tie is the (unspecified) set iteration order,
not necessarily ascending path.  For the two files of 500000 and 100 bytes
the result is the 500000-byte file first, whatever the set order. -/
theorem c3_discovery_amended (walked : List WalkEntry) (setIter : List String)
    (h : validSetIter walked setIter) :
    (prepare_pdfs walked setIter).Nodup ∧
    (∀ p, p ∈ prepare_pdfs walked setIter ↔ p ∈ pdfCandidates walked) ∧
    (prepare_pdfs walked setIter).Pairwise
      (fun a b => getsize walked b ≤ getsize walked a) ∧
    prepare_pdfs [⟨"d", "big.pdf", 500000⟩, ⟨"e", "small.pdf", 100⟩]
      ["d/big.pdf", "e/small.pdf"] = ["d/big.pdf", "e/small.pdf"] ∧
    prepare_pdfs [⟨"d", "big.pdf", 500000⟩, ⟨"e", "small.pdf", 100⟩]
      ["e/small.pdf", "d/big.pdf"] = ["d/big.pdf", "e/small.pdf"] := by
  have hperm : (prepare_pdfs walked setIter).Perm ((pdfCandidates walked).dedup) :=
    (List.perm_insertionSort _ setIter).trans h
  refine ⟨?_, ?_, ?_, by decide, by decide⟩
  · exact hperm.nodup_iff.mpr (List.nodup_dedup _)
  · intro p
    rw [hperm.mem_iff, List.mem_dedup]
  · haveI hTot : IsTotal String (fun a b => getsize walked b ≤ getsize walked a) :=
      ⟨fun a b => Nat.le_total (getsize walked b) (getsize walked a)⟩
    haveI hTr : IsTrans String (fun a b => getsize walked b ≤ getsize walked a) :=
      ⟨fun a b c hab hbc => le_trans hbc hab⟩
    exact List.sorted_insertionSort _ setIter

theorem c3_witness :
    validSetIter [⟨"d", "big.pdf", 500000⟩, ⟨"e", "small.pdf", 100⟩]
      ["e/small.pdf", "d/big.pdf"] ∧
    ((prepare_pdfs [⟨"d", "big.pdf", 500000⟩, ⟨"e", "small.pdf", 100⟩]
        ["e/small.pdf", "d/big.pdf"]).Nodup ∧
      (∀ p, p ∈ prepare_pdfs [⟨"d", "big.pdf", 500000⟩, ⟨"e", "small.pdf", 100⟩]
          ["e/small.pdf", "d/big.pdf"] ↔
        p ∈ pdfCandidates [⟨"d", "big.pdf", 500000⟩, ⟨"e", "small.pdf", 100⟩]) ∧
      (prepare_pdfs [⟨"d", "big.pdf", 500000⟩, ⟨"e", "small.pdf", 100⟩]
        ["e/small.pdf", "d/big.pdf"]).Pairwise
        (fun a b => getsize [⟨"d", "big.pdf", 500000⟩, ⟨"e", "small.pdf", 100⟩] b ≤
          getsize [⟨"d", "big.pdf", 500000⟩, ⟨"e", "small.pdf", 100⟩] a) ∧
      prepare_pdfs [⟨"d", "big.pdf", 500000⟩, ⟨"e", "small.pdf", 100⟩]
        ["d/big.pdf", "e/small.pdf"] = ["d/big.pdf", "e/small.pdf"] ∧
      prepare_pdfs [⟨"d", "big.pdf", 500000⟩, ⟨"e", "small.pdf", 100⟩]
        ["e/small.pdf", "d/big.pdf"] = ["d/big.pdf", "e/small.pdf"]) :=
  ⟨by decide, c3_discovery_amended _ _ (by decide)⟩

unseal Rat.add in
/-- C4 counterexample: a successfully processed file is logged with its
elapsed time rendered by `self.decimal_round`, a fixed-point format with TEN
decimal places — here one half second becomes "0.5000000000", which has 10
digits after the point, not 5, and differs from the 5-place rendering that
the failure sentinel format would give. -/
theorem c4_counterexample :
    runStrategy "regex" [("d/a.pdf", Outcome.success (Rat.divInt 1 2) (PyVal.int 3))] =
      .ok ⟨[⟨"a.pdf", "0.5000000000"⟩], 3, Rat.divInt 1 2, 0, [], []⟩ ∧
    fracDigitCount "0.5000000000" = 10 ∧
    fmtFixed 5 (Rat.divInt 1 2) = "0.50000" ∧
    ("0.5000000000" : String) ≠ fmtFixed 5 (Rat.divInt 1 2) ∧
    default_time = "0.00000" := by
  decide

/-- C4 (amended): for every strategy and every successfully processed file
of a completed run, the elapsed value written to the log is the elapsed time
rendered as a fixed-precision decimal string with exactly TEN decimal
places (`decimal_round`), while the zero-valued failure sentinel uses a
distinct 5-decimal-place format (`default_time`). -/
theorem c4_amended (name : String) (files : List (String × Outcome))
    (res : StrategyResult) (h : runStrategy name files = .ok res) :
    res.log = files.map (logLine name) ∧
    (∀ (p : String) (e : ℚ) (pv : PyVal), (p, Outcome.success e pv) ∈ files →
      (⟨recordedFilename name p, decimal_round e⟩ : TimingRecord) ∈ res.log ∧
      fracDigitCount (decimal_round e) = 10) ∧
    default_time = fmtFixed 5 0 ∧
    fracDigitCount default_time = 5 := by
  obtain ⟨-, hlog, -, -, -, -, -⟩ := runStrategy_ok name files res h
  refine ⟨hlog, ?_, rfl, by decide⟩
  intro p e pv hmem
  constructor
  · rw [hlog]
    exact List.mem_map.mpr ⟨(p, Outcome.success e pv), hmem, rfl⟩
  · exact fracDigitCount_fmtFixed 10 e

def c4_demo_files : List (String × Outcome) :=
  [("d/a.pdf", Outcome.success (Rat.divInt 1 4) (PyVal.int 2))]

def c4_demo_res : StrategyResult :=
  ⟨[⟨"a.pdf", "0.2500000000"⟩], 2, Rat.divInt 1 4, 0, [], []⟩

unseal Rat.add in
theorem c4_witness :
    (runStrategy "regex" c4_demo_files = .ok c4_demo_res) ∧
    (c4_demo_res.log = c4_demo_files.map (logLine "regex") ∧
      (∀ (p : String) (e : ℚ) (pv : PyVal),
        (p, Outcome.success e pv) ∈ c4_demo_files →
        (⟨recordedFilename "regex" p, decimal_round e⟩ : TimingRecord) ∈ c4_demo_res.log ∧
        fracDigitCount (decimal_round e) = 10) ∧
      default_time = fmtFixed 5 0 ∧
      fracDigitCount default_time = 5) :=
  ⟨by decide, c4_amended "regex" c4_demo_files c4_demo_res (by decide)⟩

/-- C5: recognized failures are handled entirely inside the per-file loop —
a sentinel record is written, the error is collected, and every following
file is still processed — while an exception outside the strategy's
`except` tuple aborts the strategy run, and through `launch` the whole
pipeline, with the underlying error value intact. -/
theorem c5_error_containment :
    (∀ (name : String) (files : List (String × Outcome)),
      (∀ f ∈ files, isRecognized name f = true) →
      runLoop name files initLoop =
        (⟨files.map (logLine name), successPages files, failErrors files,
          successTimes files⟩, none)) ∧
    (∀ (name : String) (pre post : List (String × Outcome)) (path : String)
      (err : PyError),
      (∀ g ∈ pre, isRecognized name g = true) →
      (recognizedKinds name).contains err.kind = false →
      runStrategy name (pre ++ (path, Outcome.failure err) :: post) =
        .error (.extraction err)) ∧
    (∀ (outcomes : String → List (String × Outcome)) (er : RunError),
      launch outcomes = .error er →
      ∃ nm ∈ strategyOrder, runStrategy nm (outcomes nm) = .error er) := by
  refine ⟨runLoop_complete, runStrategy_aborts, ?_⟩
  intro outcomes er h
  unfold launch at h
  cases hr : runAll outcomes strategyOrder [] [] with
  | error e =>
    rw [hr] at h
    simp only [Except.error.injEq] at h
    rw [← h]
    exact runAll_error outcomes strategyOrder [] [] e hr
  | ok v => rw [hr] at h; simp at h

theorem c5_witness :
    (runLoop "regex" [("d/a.pdf", Outcome.failure ⟨0, "KeyError", "x"⟩),
        ("d/b.pdf", Outcome.success 0 (PyVal.int 1))] initLoop =
      (⟨([("d/a.pdf", Outcome.failure ⟨0, "KeyError", "x"⟩),
          ("d/b.pdf", Outcome.success 0 (PyVal.int 1))] :
          List (String × Outcome)).map (logLine "regex"),
        successPages [("d/a.pdf", Outcome.failure ⟨0, "KeyError", "x"⟩),
          ("d/b.pdf", Outcome.success 0 (PyVal.int 1))],
        failErrors [("d/a.pdf", Outcome.failure ⟨0, "KeyError", "x"⟩),
          ("d/b.pdf", Outcome.success 0 (PyVal.int 1))],
        successTimes [("d/a.pdf", Outcome.failure ⟨0, "KeyError", "x"⟩),
          ("d/b.pdf", Outcome.success 0 (PyVal.int 1))]⟩, none)) ∧
    (runStrategy "regex" [("d/a.pdf", Outcome.failure ⟨7, "ZeroDivisionError", "x"⟩)] =
      .error (.extraction ⟨7, "ZeroDivisionError", "x"⟩)) ∧
    (∃ nm ∈ strategyOrder,
      runStrategy nm
        ((fun _ => [("d/a.pdf", Outcome.failure ⟨7, "ZeroDivisionError", "x"⟩)]) nm) =
        .error (.extraction ⟨7, "ZeroDivisionError", "x"⟩)) :=
  ⟨c5_error_containment.1 "regex" _ (by decide),
   c5_error_containment.2.1 "regex" [] [] "d/a.pdf" ⟨7, "ZeroDivisionError", "x"⟩
     (by simp) (by decide),
   c5_error_containment.2.2 _ _ (by decide)⟩

/-- C6 counterexample: two recorded failures that are distinct exception
objects with the same string rendering both survive `list(set(errors))` —
the code deduplicates by object identity, so `distinct_errors` has two
entries where the claim predicts one. -/
theorem c6_counterexample :
    runStrategy "regex"
      [("d/a.pdf", Outcome.failure ⟨0, "KeyError", "boom"⟩),
       ("d/b.pdf", Outcome.failure ⟨1, "KeyError", "boom"⟩)] =
      .ok ⟨[⟨"a.pdf", "0.00000"⟩, ⟨"b.pdf", "0.00000"⟩], 0, 0, 2,
        [⟨0, "KeyError", "boom"⟩, ⟨1, "KeyError", "boom"⟩],
        [⟨0, "KeyError", "boom"⟩, ⟨1, "KeyError", "boom"⟩]⟩ ∧
    pyStr ⟨0, "KeyError", "boom"⟩ = pyStr ⟨1, "KeyError", "boom"⟩ ∧
    ([⟨0, "KeyError", "boom"⟩, ⟨1, "KeyError", "boom"⟩] : List PyError).length = 2 ∧
    (([⟨0, "KeyError", "boom"⟩, ⟨1, "KeyError", "boom"⟩] : List PyError).map
      pyStr).dedup.length = 1 := by
  decide

/-- C6 (amended): `distinct_errors` is the recorded error list deduplicated
by OBJECT IDENTITY, not by string rendering: every recorded error is
represented by an entry of the same identity, and when the recorded
exception objects are pairwise distinct — as they are when each iteration
raises a fresh exception — nothing is collapsed, even if several errors
render to the same string. -/
theorem c6_amended (name : String) (files : List (String × Outcome))
    (res : StrategyResult) (h : runStrategy name files = .ok res) :
    res.distinct_errors = pySetById res.errors ∧
    (∀ e ∈ res.errors, ∃ d ∈ res.distinct_errors, d.objId = e.objId) ∧
    ((res.errors.map PyError.objId).Nodup → res.distinct_errors = res.errors) := by
  obtain ⟨-, -, herr, -, hdist, -, -⟩ := runStrategy_ok name files res h
  rw [hdist, herr]
  exact ⟨rfl, pySetById_covers _, pySetById_eq_self _⟩

def c6_demo_files : List (String × Outcome) :=
  [("d/a.pdf", Outcome.failure ⟨0, "KeyError", "boom"⟩),
   ("d/b.pdf", Outcome.failure ⟨1, "KeyError", "boom"⟩)]

def c6_demo_res : StrategyResult :=
  ⟨[⟨"a.pdf", "0.00000"⟩, ⟨"b.pdf", "0.00000"⟩], 0, 0, 2,
    [⟨0, "KeyError", "boom"⟩, ⟨1, "KeyError", "boom"⟩],
    [⟨0, "KeyError", "boom"⟩, ⟨1, "KeyError", "boom"⟩]⟩

theorem c6_witness :
    (runStrategy "regex" c6_demo_files = .ok c6_demo_res) ∧
    (c6_demo_res.distinct_errors = pySetById c6_demo_res.errors ∧
      (∀ e ∈ c6_demo_res.errors, ∃ d ∈ c6_demo_res.distinct_errors, d.objId = e.objId) ∧
      ((c6_demo_res.errors.map PyError.objId).Nodup →
        c6_demo_res.distinct_errors = c6_demo_res.errors)) :=
  ⟨by decide, c6_amended "regex" c6_demo_files c6_demo_res (by decide)⟩

/-- C7 counterexample: in `_test_regex` the `time.time()` read into
`start_time` is the FIRST statement of the iteration, before the file is
opened and read, so the timer does not start after the read. -/
theorem c7_counterexample :
    ¬ (eventIdx RegexEvent.fileRead < eventIdx RegexEvent.timerStart) := by
  decide

/-- C7 (amended): in the byte-pattern-scan strategy the timer starts BEFORE
the file is opened and read — the timed window `start_time .. end_time`
contains the file-read event as well as the pattern scan, so the recorded
elapsed time covers I/O plus pattern matching, not pure pattern-matching
time. -/
theorem c7_amended :
    eventIdx RegexEvent.timerStart < eventIdx RegexEvent.fileOpen ∧
    eventIdx RegexEvent.fileOpen < eventIdx RegexEvent.fileRead ∧
    eventIdx RegexEvent.fileRead < eventIdx RegexEvent.patternScan ∧
    eventIdx RegexEvent.patternScan < eventIdx RegexEvent.timerStop := by
  decide

unseal Rat.add in
/-- C8 counterexample: a recorded page count of five halves — not an integer
value — does not make the summary step raise: `int(2.5)` silently truncates
toward zero, so the run completes with `total_pages = 2`. -/
theorem c8_counterexample :
    runStrategy "tika" [("d/a.pdf", Outcome.success 0 (PyVal.float (Rat.divInt 5 2)))] =
      .ok ⟨[⟨"a.pdf", "0.0000000000"⟩], 2, 0, 0, [], []⟩ ∧
    (Rat.divInt 5 2 : ℚ).den ≠ 1 ∧
    truncInt (Rat.divInt 5 2) = 2 := by
  decide

/-- C8 (amended): `total_pages` is computed by converting every recorded
successful page count with Python's `int(...)` and summing; a page count
that `int(...)` rejects — a non-numeric string — makes the summary step
raise a `ValueError` that aborts the run, but a non-integer FLOAT page count
does not fail: it is silently truncated toward zero. -/
theorem c8_amended :
    (∀ (name : String) (files : List (String × Outcome)) (res : StrategyResult),
      runStrategy name files = .ok res →
      ∃ ints, mapPyInt (successPages files) = .ok ints ∧ res.total_pages = ints.sum) ∧
    (∀ q : ℚ, pyInt (PyVal.float q) = .ok (truncInt q)) ∧
    (∀ (name p : String) (e : ℚ) (s m : String),
      pyIntOfString s = .error m →
      runStrategy name [(p, Outcome.success e (PyVal.str s))] =
        .error (.conversion m)) := by
  refine ⟨?_, fun q => rfl, ?_⟩
  · intro name files res h
    obtain ⟨-, -, -, -, -, -, hint⟩ := runStrategy_ok name files res h
    exact hint
  · intro name p e s m hm
    unfold runStrategy
    rw [runLoop_complete name [(p, Outcome.success e (PyVal.str s))] (by
      intro f hf
      simp only [List.mem_singleton] at hf
      rw [hf]
      rfl)]
    have h2 : mapPyInt (successPages [(p, Outcome.success e (PyVal.str s))]) =
        .error m := by
      have hsp : successPages [(p, Outcome.success e (PyVal.str s))] =
          [PyVal.str s] := rfl
      rw [hsp]
      simp only [mapPyInt, pyInt, hm]
    simp only [h2]

def c8_demo_files : List (String × Outcome) :=
  [("d/a.pdf", Outcome.success 0 (PyVal.float (Rat.divInt 5 2)))]

def c8_demo_res : StrategyResult :=
  ⟨[⟨"a.pdf", "0.0000000000"⟩], 2, 0, 0, [], []⟩

unseal Rat.add in
theorem c8_witness :
    (runStrategy "tika" c8_demo_files = .ok c8_demo_res) ∧
    (∃ ints, mapPyInt (successPages c8_demo_files) = .ok ints ∧
      c8_demo_res.total_pages = ints.sum) ∧
    pyInt (PyVal.float (Rat.divInt 5 2)) = .ok (truncInt (Rat.divInt 5 2)) ∧
    pyIntOfString "abc" = .error "ValueError: invalid literal for int() with base 10: abc" ∧
    runStrategy "tika" [("x.pdf", Outcome.success 0 (PyVal.str "abc"))] =
      .error (.conversion "ValueError: invalid literal for int() with base 10: abc") :=
  ⟨by decide, c8_amended.1 "tika" c8_demo_files c8_demo_res (by decide),
   c8_amended.2.1 (Rat.divInt 5 2), by decide,
   c8_amended.2.2 "tika" "x.pdf" 0 "abc" _ (by decide)⟩

set_option maxHeartbeats 2000000 in
/-- C9: whenever `launch` completes, the final statistics dictionary it
marked ready and persisted carries exactly the 18 report keys — three per
strategy, for all six strategies — and exactly one JSON write happened,
performed with sorted keys and an indent of 4, with the complete dictionary
as its content and the readiness flag set. -/
theorem c9_report_complete (outcomes : String → List (String × Outcome))
    (st : LaunchResult) (h : launch outcomes = .ok st) :
    st.final_stats_dict.map Prod.fst = reportKeys ∧
    st.writes = [⟨st.final_stats_dict, true, 4⟩] ∧
    st.is_ready = true := by
  unfold launch at h
  simp only [strategyOrder, runAll] at h
  cases h1 : runStrategy "regex" (outcomes "regex") with
  | error e => rw [h1] at h; simp at h
  | ok r1 =>
  rw [h1] at h
  simp only [runAll] at h
  cases h2 : runStrategy "pypdf2" (outcomes "pypdf2") with
  | error e => rw [h2] at h; simp at h
  | ok r2 =>
  rw [h2] at h
  simp only [runAll] at h
  cases h3 : runStrategy "pdfrw" (outcomes "pdfrw") with
  | error e => rw [h3] at h; simp at h
  | ok r3 =>
  rw [h3] at h
  simp only [runAll] at h
  cases h4 : runStrategy "pdfquery" (outcomes "pdfquery") with
  | error e => rw [h4] at h; simp at h
  | ok r4 =>
  rw [h4] at h
  simp only [runAll] at h
  cases h5 : runStrategy "tika" (outcomes "tika") with
  | error e => rw [h5] at h; simp at h
  | ok r5 =>
  rw [h5] at h
  simp only [runAll] at h
  cases h6 : runStrategy "pdfminer" (outcomes "pdfminer") with
  | error e => rw [h6] at h; simp at h
  | ok r6 =>
  rw [h6] at h
  simp only [runAll] at h
  simp only [Except.ok.injEq] at h
  subst h
  refine ⟨?_, rfl, rfl⟩
  simp only [updateStats_fst, List.map_nil]
  decide

def c9_demo_res : StrategyResult := ⟨[], 0, 0, 0, [], []⟩

def c9_demo_dict : List (String × StatVal) :=
  [("regex_total_pages", .intV 0), ("regex_total_parsing_time", .ratV 0),
   ("regex_errors", .errV 0 []),
   ("pypdf2_total_pages", .intV 0), ("pypdf2_total_parsing_time", .ratV 0),
   ("pypdf2_errors", .errV 0 []),
   ("pdfrw_total_pages", .intV 0), ("pdfrw_total_parsing_time", .ratV 0),
   ("pdfrw_errors", .errV 0 []),
   ("pdfquery_total_pages", .intV 0), ("pdfquery_total_parsing_time", .ratV 0),
   ("pdfquery_errors", .errV 0 []),
   ("tika_total_pages", .intV 0), ("tika_total_parsing_time", .ratV 0),
   ("tika_errors", .errV 0 []),
   ("pdfminer_total_pages", .intV 0), ("pdfminer_total_parsing_time", .ratV 0),
   ("pdfminer_errors", .errV 0 [])]

def c9_demo : LaunchResult :=
  ⟨[("regex", c9_demo_res), ("pypdf2", c9_demo_res), ("pdfrw", c9_demo_res),
    ("pdfquery", c9_demo_res), ("tika", c9_demo_res), ("pdfminer", c9_demo_res)],
   c9_demo_dict, true, [⟨c9_demo_dict, true, 4⟩]⟩

theorem c9_witness :
    (launch (fun _ => []) = .ok c9_demo) ∧
    (c9_demo.final_stats_dict.map Prod.fst = reportKeys ∧
      c9_demo.writes = [⟨c9_demo.final_stats_dict, true, 4⟩] ∧
      c9_demo.is_ready = true) :=
  ⟨by decide, c9_report_complete (fun _ => []) c9_demo (by decide)⟩

/-- C10: the filename stored in a timing record is the file's basename —
directory components are dropped, so two distinct files sharing a basename
are logged under the same key — and for the five strategies regex, pypdf2,
pdfrw, pdfquery and tika the basename is additionally accent-stripped (NFKD
followed by removal of combining marks), while pdfminer records the raw
basename, so the same file can be logged under different keys by pdfminer
versus the other strategies. -/
theorem c10_recorded_filename :
    (∀ (name : String) (f : String × Outcome),
      (logLine name f).filename = recordedFilename name f.1) ∧
    (∀ (name : String) (files : List (String × Outcome)) (res : StrategyResult),
      runStrategy name files = .ok res →
      res.log.map TimingRecord.filename =
        files.map (fun f => recordedFilename name f.1)) ∧
    (∀ p : String, recordedFilename "pdfminer" p = basename p) ∧
    (∀ name ∈ (["regex", "pypdf2", "pdfrw", "pdfquery", "tika"] : List String),
      ∀ p : String, recordedFilename name p = strip_accents (basename p)) ∧
    (∀ (name dir f : String),
      recordedFilename name (dir ++ "/" ++ f) = recordedFilename name f) ∧
    recordedFilename "regex" "docs/café.pdf" = "cafe.pdf" ∧
    recordedFilename "pdfminer" "docs/café.pdf" = "café.pdf" ∧
    ("cafe.pdf" : String) ≠ "café.pdf" ∧
    recordedFilename "regex" "a/x.pdf" = recordedFilename "regex" "b/x.pdf" ∧
    ("a/x.pdf" : String) ≠ "b/x.pdf" := by
  have hline : ∀ (name : String) (f : String × Outcome),
      (logLine name f).filename = recordedFilename name f.1 := by
    intro name f
    obtain ⟨p, o⟩ := f
    cases o <;> rfl
  refine ⟨hline, ?_, fun p => rfl, ?_, ?_, by decide, by decide, by decide, by decide,
    by decide⟩
  · intro name files res h
    obtain ⟨-, hlog, -, -, -, -, -⟩ := runStrategy_ok name files res h
    rw [hlog, List.map_map]
    exact List.map_congr_left fun f _ => hline name f
  · intro name hname p
    fin_cases hname <;> rfl
  · intro name dir f
    unfold recordedFilename
    by_cases hn : name = "pdfminer"
    · simp [hn, basename_append]
    · simp [hn, basename_append]

def c10_demo_files : List (String × Outcome) :=
  [("docs/café.pdf", Outcome.failure ⟨0, "KeyError", "x"⟩)]

def c10_demo_res : StrategyResult :=
  ⟨[⟨"café.pdf", "0.00000"⟩], 0, 0, 1, [⟨0, "KeyError", "x"⟩], [⟨0, "KeyError", "x"⟩]⟩

theorem c10_witness :
    (runStrategy "pdfminer" c10_demo_files = .ok c10_demo_res) ∧
    c10_demo_res.log.map TimingRecord.filename =
      c10_demo_files.map (fun f => recordedFilename "pdfminer" f.1) ∧
    ("regex" ∈ (["regex", "pypdf2", "pdfrw", "pdfquery", "tika"] : List String)) ∧
    recordedFilename "regex" "docs/café.pdf" = strip_accents (basename "docs/café.pdf") :=
  ⟨by decide,
   c10_recorded_filename.2.1 "pdfminer" c10_demo_files c10_demo_res (by decide),
   by decide,
   c10_recorded_filename.2.2.2.1 "regex" (by decide) "docs/café.pdf"⟩

end PdfBench
